import Mathlib

/-!
Shallow embedding of the ephemeral form protocol of the PixieBrix extension
(`src/contentScript/ephemeralFormProtocol.ts`) and of its facade
(`src/blocks/transformers/ephemeralForm/formTransformer.ts`), together with
proofs of the specification's claims about them.
-/

namespace EphemeralForm

/-- JSON-like values: the `unknown` payloads carried by the protocol
(form values, schemas, uiSchemas). -/
inductive Value where
  | null : Value
  | bool (b : Bool) : Value
  | num (n : Int) : Value
  | str (s : String) : Value
  | arr (items : List Value) : Value
  | obj (fields : List (String × Value)) : Value

/-- Mirrors `FormDefinition` from `formTypes.ts` as constructed by
`FormTransformer.transform`: `{ schema, uiSchema, cancelable, submitCaption }`. -/
structure FormDefinition where
  schema : Value
  uiSchema : Value
  cancelable : Bool
  submitCaption : String

/-- JavaScript errors observable through the protocol. -/
inductive JsError where
  /-- The `CancelError` from `@/errors/businessErrors`. -/
  | cancelError (message : String) : JsError
  /-- a plain `Error`, e.g. `new Error("Form not registered: ...")`. -/
  | error (message : String) : JsError
  /-- a `TypeError` from dereferencing `undefined`. -/
  | typeError (message : String) : JsError
  deriving DecidableEq

/-- State of a `p-defer` deferred promise: promise semantics settle it at
most once; later `resolve`/`reject` calls are no-ops. -/
inductive DeferredState where
  | unsettled : DeferredState
  | resolved (v : Value) : DeferredState
  | rejected (e : JsError) : DeferredState

/-- A `DeferredState` that is no longer `unsettled` is terminal. -/
def DeferredState.isSettled : DeferredState → Bool
  | .unsettled => false
  | _ => true

/-- JS `Map.get` on an association list: first binding of the key. -/
def mapGet {κ α : Type} [DecidableEq κ] (m : List (κ × α)) (k : κ) : Option α :=
  (m.find? (fun p => p.1 = k)).map (fun p => p.2)

/-- JS `Map.set` on an association list: replace the first binding in
place, or append a new binding. -/
def mapSet {κ α : Type} [DecidableEq κ] (m : List (κ × α)) (k : κ) (v : α) :
    List (κ × α) :=
  match m with
  | [] => [(k, v)]
  | p :: rest => if p.1 = k then (k, v) :: rest else p :: mapSet rest k v

/-- JS `Map.delete` on an association list. -/
def mapDelete {κ α : Type} [DecidableEq κ] (m : List (κ × α)) (k : κ) :
    List (κ × α) :=
  match m with
  | [] => []
  | p :: rest => if p.1 = k then mapDelete rest k else p :: mapDelete rest k

/-- Mirrors `RegisteredForm` from `ephemeralFormProtocol.ts`:
`{ definition, registration }`, where `registration` is the deferred
promise, identified here by the index at which it was allocated. -/
structure RegisteredForm where
  definition : FormDefinition
  registration : Nat

/-- The content-script protocol state: the module-level
`forms = new Map<UUID, RegisteredForm>()` plus the settlement state of
every deferred promise allocated so far (`nextDeferred` is the next
fresh allocation index). -/
structure PState where
  forms : List (String × RegisteredForm)
  deferreds : List (Nat × DeferredState)
  nextDeferred : Nat
  /-- number of `console.warn` calls emitted by `registerForm`. -/
  warnings : Nat

/-- The empty store: fresh content-script context. -/
def PState.empty : PState :=
  { forms := [], deferreds := [], nextDeferred := 0, warnings := 0 }

/-- Settlement state of the deferred promise allocated at index `d`. -/
def getDeferred (s : PState) (d : Nat) : Option DeferredState :=
  mapGet s.deferreds d

/-- Settling a deferred promise: a no-op unless it is currently
`unsettled` (promise semantics: at most one settlement). -/
def settleDeferred (s : PState) (d : Nat) (outcome : DeferredState) : PState :=
  match mapGet s.deferreds d with
  | some .unsettled => { s with deferreds := mapSet s.deferreds d outcome }
  | _ => s

/-- The `CancelError("User cancelled the action")` thrown by `cancelForm`. -/
def userCancelledError : JsError := .cancelError "User cancelled the action"

/-- Mirrors `registerForm(nonce, definition)`: allocates a fresh deferred
(`pDefer()`), warns on `console` if the nonce is already present, sets the
map entry (overwriting any existing one), and returns the promise
(here: the allocation index of the deferred). -/
def registerForm (s : PState) (nonce : String) (definition : FormDefinition) :
    PState × Nat :=
  let d := s.nextDeferred
  ({ s with
      forms := mapSet s.forms nonce ⟨definition, d⟩
      deferreds := mapSet s.deferreds d .unsettled
      nextDeferred := d + 1
      warnings :=
        if (mapGet s.forms nonce).isSome then s.warnings + 1 else s.warnings },
    d)

/-- Mirrors `unregisterForm(formNonce)`: `forms.delete(formNonce)`. -/
def unregisterForm (s : PState) (formNonce : String) : PState :=
  { s with forms := mapDelete s.forms formNonce }

/-- Mirrors `getFormDefinition(nonce)`: `forms.get(nonce).definition` — on a
missing entry the dereference of `undefined` raises a `TypeError`,
surfaced as a rejection of the returned promise. -/
def getFormDefinition (s : PState) (nonce : String) :
    Except JsError FormDefinition :=
  match mapGet s.forms nonce with
  | none =>
      .error (.typeError "Cannot read properties of undefined (reading \x27definition\x27)")
  | some form => .ok form.definition

/-- Mirrors `resolveForm(formNonce, values)`: throws `Form not registered` when the
nonce has no entry; otherwise resolves the registration deferred with
`values` and unregisters the form. -/
def resolveForm (s : PState) (formNonce : String) (values : Value) :
    Except JsError PState :=
  match mapGet s.forms formNonce with
  | none => .error (.error ("Form not registered: " ++ formNonce))
  | some form =>
      .ok (unregisterForm
        (settleDeferred s form.registration (.resolved values)) formNonce)

/-- One iteration of `cancelForm`'s loop:
`forms.get(formNonce)?.registration.reject(new CancelError(...))` followed
by `unregisterForm(formNonce)`. -/
def cancelFormStep (s : PState) (formNonce : String) : PState :=
  let s :=
    match mapGet s.forms formNonce with
    | some form =>
        settleDeferred s form.registration (.rejected userCancelledError)
    | none => s
  unregisterForm s formNonce

/-- Mirrors `cancelForm(...formNonces)`: variadic; never throws. -/
def cancelForm (s : PState) (formNonces : List String) : PState :=
  formNonces.foldl cancelFormStep s

/-- The operations another context can invoke against the store; used to
state temporal properties over arbitrary continuations. A `resolve` whose
call throws leaves the store unchanged (the throw propagates to that
caller only). -/
inductive ProtoOp where
  | register (nonce : String) (definition : FormDefinition) : ProtoOp
  | resolve (nonce : String) (values : Value) : ProtoOp
  | cancel (nonces : List String) : ProtoOp

/-- Effect of one operation on the store. -/
def applyOp (s : PState) : ProtoOp → PState
  | .register nonce definition => (registerForm s nonce definition).1
  | .resolve nonce values =>
      match resolveForm s nonce values with
      | .ok s' => s'
      | .error _ => s
  | .cancel nonces => cancelForm s nonces

/-- Effect of a sequence of operations on the store. -/
def applyOps (s : PState) (ops : List ProtoOp) : PState :=
  ops.foldl applyOp s

/-- The invariant behind terminality: deferred `d` is settled with outcome
`X` and will never be reallocated. -/
def SettledAt (d : Nat) (X : DeferredState) (s : PState) : Prop :=
  getDeferred s d = some X ∧ d < s.nextDeferred

/-- The invariant behind the overwrite leak: deferred `d` is still
unsettled, will never be reallocated, and no store entry references it,
so no operation can ever settle it. -/
def OrphanAt (d : Nat) (s : PState) : Prop :=
  getDeferred s d = some .unsettled ∧ d < s.nextDeferred ∧
    ∀ p ∈ s.forms, p.2.registration ≠ d

/-- The block arguments of `FormTransformer.transform`: `schema` is
required; the other inputs may be omitted (`none`), in which case the
destructuring defaults of `transform` apply. -/
structure TransformArgs where
  schema : Value
  uiSchema : Option Value
  cancelable : Option Bool
  submitCaption : Option String
  location : Option String

/-- The `uiSchema = {}` destructuring default. -/
def effectiveUiSchema (a : TransformArgs) : Value := a.uiSchema.getD (.obj [])

/-- The `cancelable = true` destructuring default. -/
def effectiveCancelable (a : TransformArgs) : Bool := a.cancelable.getD true

/-- The `submitCaption = "Submit"` destructuring default. -/
def effectiveSubmitCaption (a : TransformArgs) : String :=
  a.submitCaption.getD "Submit"

/-- The `location = "modal"` destructuring default. -/
def effectiveLocation (a : TransformArgs) : String := a.location.getD "modal"

/-- The `formDefinition` object built by `transform`:
`{ schema, uiSchema, cancelable, submitCaption }`. -/
def formDefinitionOf (a : TransformArgs) : FormDefinition :=
  ⟨a.schema, effectiveUiSchema a, effectiveCancelable a,
    effectiveSubmitCaption a⟩

/-- Mirrors `FormTransformer.inputSchema`, transcribed from `formTransformer.ts`. -/
def inputSchema : Value :=
  .obj [
    ("type", .str "object"),
    ("properties", .obj [
      ("schema", .obj [
        ("type", .str "object"),
        ("description", .str "The JSON Schema for the form"),
        ("additionalProperties", .bool true)]),
      ("uiSchema", .obj [
        ("type", .str "object"),
        ("description",
          .str "The react-jsonschema-form uiSchema for the form"),
        ("additionalProperties", .bool true)]),
      ("cancelable", .obj [
        ("type", .str "boolean"),
        ("description",
          .str "Whether or not the user can cancel the form (default=true)"),
        ("default", .bool true)]),
      ("submitCaption", .obj [
        ("type", .str "string"),
        ("description", .str "The submit button caption (default=\x27Submit\x27)"),
        ("default", .str "Submit")]),
      ("location", .obj [
        ("type", .str "string"),
        ("enum", .arr [.str "modal", .str "sidebar"]),
        ("description", .str "The location of the form (default=\x27modal\x27)"),
        ("default", .str "modal")])]),
    ("required", .arr [.str "schema"])]

/-- Field lookup in an object `Value`. -/
def getField (v : Value) (k : String) : Option Value :=
  match v with
  | .obj fields => mapGet fields k
  | _ => none

/-- State of one `transform` invocation and its collaborators: the
protocol store, the listeners currently registered by the call, the
scoped `AbortController`, and the rendering surface. -/
structure World where
  proto : PState
  /-- the fresh `frameNonce` generated by `uuidv4()`. -/
  frameNonce : String
  /-- the deferred allocated by `registerForm` for this call. -/
  regId : Nat
  /-- the effective location string of this call. -/
  location : String
  /-- the caller's `abortSignal` has fired. -/
  callerAborted : Bool
  /-- the `"abort"` listener that `transform` registered on the caller's
  `abortSignal` is currently registered (it is added without `once` or a
  `signal` option, so only an explicit removal could release it). -/
  callerAbortListener : Bool
  /-- the window `PANEL_HIDING_EVENT` listener, registered with
  `{ signal: controller.signal }`, hence removed when the scoped
  controller aborts. -/
  panelHidingListener : Bool
  /-- the `"abort"` listener added on `controller.signal` in sidebar
  mode. -/
  ctrlAbortListener : Bool
  /-- the scoped `AbortController` has aborted. -/
  ctrlAborted : Bool
  /-- the modal overlay is currently displayed. -/
  modalShown : Bool
  /-- the sidebar form entry is currently displayed. -/
  sidebarFormShown : Bool
  /-- number of rendering-surface creations performed by this call. -/
  surfacesCreated : Nat
  /-- number of rendering-surface teardowns performed by this call. -/
  teardowns : Nat
  /-- Whether `transform` has returned (its `finally` clause has run). -/
  finished : Bool

/-- Mirrors `controller.abort()`. Idempotent: an already-aborted signal does not
fire again. On the transition to aborted: listeners registered with
`{ signal: controller.signal }` (the panel-hiding listener) are removed
by the DOM; the `"abort"` listeners on `controller.signal` fire. In
sidebar mode that listener runs `hideSidebarForm(frameNonce)` and
`cancelForm(frameNonce)`.

Modelled from the spec for modal mode: `showModal` (in
`modalUtils.ts`, outside this slice) receives the scoped controller and
removes the modal overlay when the controller aborts — the
rendering surface is "destroyed after settlement or explicit
cancellation — guaranteed via a scoped teardown". -/
def controllerAbort (w : World) : World :=
  if w.ctrlAborted then w
  else if w.location = "sidebar" then
    if w.ctrlAbortListener then
      { w with ctrlAborted := true, panelHidingListener := false,
               teardowns := w.teardowns + 1, sidebarFormShown := false,
               proto := cancelForm w.proto [w.frameNonce] }
    else
      { w with ctrlAborted := true, panelHidingListener := false }
  else
    { w with ctrlAborted := true, panelHidingListener := false,
             teardowns := w.teardowns + 1, modalShown := false }

/-- The body of `transform` up to its suspension point `await
registerForm(...)`: generate the frame source for the fresh nonce, build
the form definition, register the caller-abort listener (when the caller
supplied an `abortSignal`), create the scoped controller, show the
surface (sidebar panel or modal overlay) with its listeners, and
register the form. -/
def setup (a : TransformArgs) (s₀ : PState) (nonce : String)
    (hasAbortSignal : Bool) : World :=
  let location := effectiveLocation a
  let reg := registerForm s₀ nonce (formDefinitionOf a)
  { proto := reg.1
    frameNonce := nonce
    regId := reg.2
    location := location
    callerAborted := false
    callerAbortListener := hasAbortSignal
    panelHidingListener := if location = "sidebar" then true else false
    ctrlAbortListener := if location = "sidebar" then true else false
    ctrlAborted := false
    modalShown := if location = "sidebar" then false else true
    sidebarFormShown := if location = "sidebar" then true else false
    surfacesCreated := 1
    teardowns := 0
    finished := false }

/-- The external occurrences that can reach a suspended `transform`
call: each arrives on the content script's event loop, one at a time. -/
inductive UiEvent where
  /-- the caller's `abortSignal` fires. -/
  | callerAbort : UiEvent
  /-- the sidebar host dispatches `PANEL_HIDING_EVENT` on `window`. -/
  | panelHiding : UiEvent
  /-- the form frame submits values: messaging invokes
  `resolveForm(frameNonce, values)`. -/
  | submit (values : Value) : UiEvent
  /-- the form frame or host dismisses the form: messaging invokes
  `cancelForm(frameNonce)`. -/
  | dismiss : UiEvent

/-- Effect of one event on the world, firing exactly the listeners the
call has registered. -/
def fireEvent (w : World) : UiEvent → World
  | .callerAbort =>
      if w.callerAborted then w
      else if w.callerAbortListener then
        { w with callerAborted := true,
                 proto := cancelForm w.proto [w.frameNonce] }
      else { w with callerAborted := true }
  | .panelHiding => if w.panelHidingListener then controllerAbort w else w
  | .submit values =>
      match resolveForm w.proto w.frameNonce values with
      | .ok s => { w with proto := s }
      | .error _ => w
  | .dismiss => { w with proto := cancelForm w.proto [w.frameNonce] }

/-- Whether the registration promise of this call has settled. -/
def World.isSettled (w : World) : Bool :=
  match getDeferred w.proto w.regId with
  | some (.resolved _) => true
  | some (.rejected _) => true
  | _ => false

/-- Mirrors the `try/finally` around `await registerForm(...)`:
once the registration promise settles, the suspended `transform` resumes,
its `finally` clause aborts the scoped controller, and the call
returns (or throws). -/
def resumeIfSettled (w : World) : World :=
  if w.finished then w
  else if w.isSettled then { controllerAbort w with finished := true }
  else w

/-- One event arriving at the suspended call, followed by the resumption
of `transform` if the event settled the registration promise. -/
def stepEvent (w : World) (e : UiEvent) : World :=
  resumeIfSettled (fireEvent w e)

/-- A sequence of external events. -/
def runEvents (w : World) (es : List UiEvent) : World :=
  es.foldl stepEvent w

/-- The result `transform` delivered to its caller, when it has
returned: `.ok v` for a resolution with `v`, `.error e` for a
rejection. -/
def transformOutcome (w : World) : Option (Except JsError Value) :=
  if w.finished then
    match getDeferred w.proto w.regId with
    | some (.resolved v) => some (.ok v)
    | some (.rejected e) => some (.error e)
    | _ => none
  else none

/-- The run-wide invariant of one `transform` call: the location and the
listener registrations the call made are fixed (the caller-abort listener
is never removed), the teardown count tracks the scoped controller, the
panel-hiding listener is gone once the controller aborts, and a finished
call has aborted the controller. -/
def WorldInv (hasSignal : Bool) (loc : String) (w : World) : Prop :=
  w.location = loc ∧
  w.surfacesCreated = 1 ∧
  w.teardowns = (if w.ctrlAborted then 1 else 0) ∧
  w.callerAbortListener = hasSignal ∧
  w.ctrlAbortListener = (if loc = "sidebar" then true else false) ∧
  (w.ctrlAborted = true → w.panelHidingListener = false) ∧
  (w.finished = true → w.ctrlAborted = true)

@[simp]
theorem mapGet_nil {κ α : Type} [DecidableEq κ] (k : κ) :
    mapGet ([] : List (κ × α)) k = none := rfl

@[simp]
theorem mapGet_cons {κ α : Type} [DecidableEq κ] (p : κ × α)
    (m : List (κ × α)) (k : κ) :
    mapGet (p :: m) k = if p.1 = k then some p.2 else mapGet m k := by
  simp only [mapGet, List.find?]
  by_cases h : p.1 = k <;> simp [h]

@[simp]
theorem mapGet_mapSet_self {κ α : Type} [DecidableEq κ] (m : List (κ × α))
    (k : κ) (v : α) : mapGet (mapSet m k v) k = some v := by
  induction m with
  | nil => simp [mapSet]
  | cons p rest ih =>
    by_cases h : p.1 = k <;> simp [mapSet, h, ih]

theorem mapGet_mapSet_ne {κ α : Type} [DecidableEq κ] (m : List (κ × α))
    (k k' : κ) (v : α) (hne : k ≠ k') :
    mapGet (mapSet m k v) k' = mapGet m k' := by
  induction m with
  | nil => simp [mapSet, hne]
  | cons p rest ih =>
    by_cases h : p.1 = k
    · have hpk : p.1 ≠ k' := by rw [h]; exact hne
      simp [mapSet, h, hne, hpk]
    · by_cases h' : p.1 = k' <;> simp [mapSet, h, h', ih, Ne.symm hne]

@[simp]
theorem mapGet_mapDelete_self {κ α : Type} [DecidableEq κ] (m : List (κ × α))
    (k : κ) : mapGet (mapDelete m k) k = none := by
  induction m with
  | nil => rfl
  | cons p rest ih =>
    by_cases h : p.1 = k <;> simp [mapDelete, h, ih]

theorem mapGet_mapDelete_ne {κ α : Type} [DecidableEq κ] (m : List (κ × α))
    (k k' : κ) (hne : k ≠ k') :
    mapGet (mapDelete m k) k' = mapGet m k' := by
  induction m with
  | nil => rfl
  | cons p rest ih =>
    by_cases h : p.1 = k
    · have hpk : p.1 ≠ k' := by rw [h]; exact hne
      simp [mapDelete, h, hpk, ih, hne]
    · by_cases h' : p.1 = k' <;> simp [mapDelete, h, h', ih, Ne.symm hne]

theorem mapDelete_eq_self_of_mapGet_none {κ α : Type} [DecidableEq κ]
    (m : List (κ × α)) (k : κ) (h : mapGet m k = none) :
    mapDelete m k = m := by
  induction m with
  | nil => rfl
  | cons p rest ih =>
    by_cases hp : p.1 = k
    · simp [hp] at h
    · simp only [mapGet_cons, hp, if_false] at h
      simp [mapDelete, hp, ih h]

theorem mem_of_mapGet_eq_some {κ α : Type} [DecidableEq κ]
    (m : List (κ × α)) (k : κ) (v : α) (h : mapGet m k = some v) :
    (k, v) ∈ m := by
  induction m with
  | nil => simp [mapGet] at h
  | cons p rest ih =>
    by_cases hp : p.1 = k
    · simp only [mapGet_cons, hp, if_true, Option.some_inj] at h
      obtain ⟨p1, p2⟩ := p
      simp only at hp h
      subst hp
      subst h
      exact List.mem_cons_self _ _
    · simp only [mapGet_cons, hp, if_false] at h
      exact List.mem_cons_of_mem _ (ih h)

theorem mem_mapSet {κ α : Type} [DecidableEq κ] (m : List (κ × α))
    (k : κ) (v : α) (p : κ × α) (h : p ∈ mapSet m k v) :
    p ∈ m ∨ p = (k, v) := by
  induction m with
  | nil => simp [mapSet] at h; simp [h]
  | cons q rest ih =>
    by_cases hq : q.1 = k
    · simp only [mapSet, hq, if_true, List.mem_cons] at h
      rcases h with h | h
      · right; exact h
      · left; exact List.mem_cons_of_mem _ h
    · simp only [mapSet, hq, if_false, List.mem_cons] at h
      rcases h with h | h
      · left; simp [h]
      · rcases ih h with h' | h'
        · left; exact List.mem_cons_of_mem _ h'
        · right; exact h'

theorem mem_mapDelete {κ α : Type} [DecidableEq κ] (m : List (κ × α))
    (k : κ) (p : κ × α) (h : p ∈ mapDelete m k) : p ∈ m := by
  induction m with
  | nil => simp [mapDelete] at h
  | cons q rest ih =>
    by_cases hq : q.1 = k
    · simp only [mapDelete, hq, if_true] at h
      exact List.mem_cons_of_mem _ (ih h)
    · simp only [mapDelete, hq, if_false, List.mem_cons] at h
      rcases h with h | h
      · simp [h]
      · exact List.mem_cons_of_mem _ (ih h)

@[simp]
theorem settleDeferred_forms (s : PState) (d : Nat) (outcome : DeferredState) :
    (settleDeferred s d outcome).forms = s.forms := by
  unfold settleDeferred
  split <;> rfl

@[simp]
theorem settleDeferred_nextDeferred (s : PState) (d : Nat)
    (outcome : DeferredState) :
    (settleDeferred s d outcome).nextDeferred = s.nextDeferred := by
  unfold settleDeferred
  split <;> rfl

@[simp]
theorem unregisterForm_deferreds (s : PState) (n : String) :
    (unregisterForm s n).deferreds = s.deferreds := rfl

@[simp]
theorem unregisterForm_nextDeferred (s : PState) (n : String) :
    (unregisterForm s n).nextDeferred = s.nextDeferred := rfl

theorem getDeferred_settleDeferred_ne (s : PState) (d d' : Nat)
    (outcome : DeferredState) (h : d ≠ d') :
    getDeferred (settleDeferred s d outcome) d' = getDeferred s d' := by
  unfold settleDeferred getDeferred
  split
  · exact mapGet_mapSet_ne _ _ _ _ h
  · rfl

theorem getDeferred_settleDeferred_self (s : PState) (d : Nat)
    (outcome : DeferredState) (h : getDeferred s d = some .unsettled) :
    getDeferred (settleDeferred s d outcome) d = some outcome := by
  unfold getDeferred at h ⊢
  unfold settleDeferred
  rw [h]
  exact mapGet_mapSet_self _ _ _

theorem settleDeferred_of_settled (s : PState) (d : Nat) (X : DeferredState)
    (outcome : DeferredState) (hd : getDeferred s d = some X)
    (hX : X.isSettled = true) : settleDeferred s d outcome = s := by
  unfold getDeferred at hd
  unfold settleDeferred
  rw [hd]
  cases X with
  | unsettled => simp [DeferredState.isSettled] at hX
  | resolved v => rfl
  | rejected e => rfl

theorem settledAt_cancelFormStep (d : Nat) (X : DeferredState)
    (hX : X.isSettled = true) (s : PState) (n : String)
    (h : SettledAt d X s) : SettledAt d X (cancelFormStep s n) := by
  obtain ⟨hd, hlt⟩ := h
  unfold cancelFormStep
  cases hform : mapGet s.forms n with
  | none => exact ⟨hd, hlt⟩
  | some form =>
    refine ⟨?_, ?_⟩
    · show getDeferred (settleDeferred s form.registration _) d = some X
      by_cases hr : form.registration = d
      · subst hr
        rw [settleDeferred_of_settled s _ X _ hd hX]
        exact hd
      · rw [getDeferred_settleDeferred_ne _ _ _ _ hr]
        exact hd
    · simpa using hlt

theorem settledAt_cancelForm (d : Nat) (X : DeferredState)
    (hX : X.isSettled = true) (ns : List String) :
    ∀ s : PState, SettledAt d X s → SettledAt d X (cancelForm s ns) := by
  induction ns with
  | nil => intro s h; exact h
  | cons n rest ih =>
    intro s h
    exact ih _ (settledAt_cancelFormStep d X hX s n h)

theorem settledAt_applyOp (d : Nat) (X : DeferredState)
    (hX : X.isSettled = true) (s : PState) (op : ProtoOp)
    (h : SettledAt d X s) : SettledAt d X (applyOp s op) := by
  obtain ⟨hd, hlt⟩ := h
  cases op with
  | register nonce definition =>
    refine ⟨?_, ?_⟩
    · show mapGet (mapSet s.deferreds s.nextDeferred .unsettled) d = some X
      rw [mapGet_mapSet_ne _ _ _ _ (Nat.ne_of_gt hlt)]
      exact hd
    · exact Nat.lt_succ_of_lt hlt
  | resolve nonce values =>
    show SettledAt d X (match resolveForm s nonce values with
      | .ok s' => s' | .error _ => s)
    unfold resolveForm
    cases hform : mapGet s.forms nonce with
    | none => exact ⟨hd, hlt⟩
    | some form =>
      refine ⟨?_, ?_⟩
      · show getDeferred (settleDeferred s form.registration _) d = some X
        by_cases hr : form.registration = d
        · subst hr
          rw [settleDeferred_of_settled s _ X _ hd hX]
          exact hd
        · rw [getDeferred_settleDeferred_ne _ _ _ _ hr]
          exact hd
      · simpa using hlt
  | cancel nonces => exact settledAt_cancelForm d X hX nonces s ⟨hd, hlt⟩

/-- No transition out of a terminal state: once a deferred is settled, no
sequence of protocol operations ever changes its outcome. -/
theorem settledAt_applyOps (d : Nat) (X : DeferredState)
    (hX : X.isSettled = true) (ops : List ProtoOp) :
    ∀ s : PState, SettledAt d X s → SettledAt d X (applyOps s ops) := by
  induction ops with
  | nil => intro s h; exact h
  | cons op rest ih =>
    intro s h
    exact ih _ (settledAt_applyOp d X hX s op h)

theorem orphanAt_cancelFormStep (d : Nat) (s : PState) (n : String)
    (h : OrphanAt d s) : OrphanAt d (cancelFormStep s n) := by
  obtain ⟨hd, hlt, href⟩ := h
  unfold cancelFormStep
  cases hform : mapGet s.forms n with
  | none =>
    refine ⟨hd, hlt, ?_⟩
    intro p hp
    exact href p (mem_mapDelete _ _ _ hp)
  | some form =>
    have hr : form.registration ≠ d :=
      href (n, form) (mem_of_mapGet_eq_some _ _ _ hform)
    refine ⟨?_, ?_, ?_⟩
    · show getDeferred (settleDeferred s form.registration _) d = some .unsettled
      rw [getDeferred_settleDeferred_ne _ _ _ _ hr]
      exact hd
    · simpa using hlt
    · intro p hp
      have hp' : p ∈ (settleDeferred s form.registration
          (.rejected userCancelledError)).forms := mem_mapDelete _ _ _ hp
      rw [settleDeferred_forms] at hp'
      exact href p hp'

theorem orphanAt_cancelForm (d : Nat) (ns : List String) :
    ∀ s : PState, OrphanAt d s → OrphanAt d (cancelForm s ns) := by
  induction ns with
  | nil => intro s h; exact h
  | cons n rest ih =>
    intro s h
    exact ih _ (orphanAt_cancelFormStep d s n h)

theorem orphanAt_applyOp (d : Nat) (s : PState) (op : ProtoOp)
    (h : OrphanAt d s) : OrphanAt d (applyOp s op) := by
  obtain ⟨hd, hlt, href⟩ := h
  cases op with
  | register nonce definition =>
    refine ⟨?_, Nat.lt_succ_of_lt hlt, ?_⟩
    · show mapGet (mapSet s.deferreds s.nextDeferred .unsettled) d =
        some .unsettled
      rw [mapGet_mapSet_ne _ _ _ _ (Nat.ne_of_gt hlt)]
      exact hd
    · intro p hp
      rcases mem_mapSet _ _ _ _ hp with h' | h'
      · exact href p h'
      · rw [h']
        exact Nat.ne_of_gt hlt
  | resolve nonce values =>
    show OrphanAt d (match resolveForm s nonce values with
      | .ok s' => s' | .error _ => s)
    unfold resolveForm
    cases hform : mapGet s.forms nonce with
    | none => exact ⟨hd, hlt, href⟩
    | some form =>
      have hr : form.registration ≠ d :=
        href (nonce, form) (mem_of_mapGet_eq_some _ _ _ hform)
      refine ⟨?_, ?_, ?_⟩
      · show getDeferred (settleDeferred s form.registration _) d =
          some .unsettled
        rw [getDeferred_settleDeferred_ne _ _ _ _ hr]
        exact hd
      · simpa using hlt
      · intro p hp
        have hp' : p ∈ (settleDeferred s form.registration
            (.resolved values)).forms := mem_mapDelete _ _ _ hp
        rw [settleDeferred_forms] at hp'
        exact href p hp'
  | cancel nonces => exact orphanAt_cancelForm d nonces s ⟨hd, hlt, href⟩

/-- An orphaned deferred stays unsettled forever. -/
theorem orphanAt_applyOps (d : Nat) (ops : List ProtoOp) :
    ∀ s : PState, OrphanAt d s → OrphanAt d (applyOps s ops) := by
  induction ops with
  | nil => intro s h; exact h
  | cons op rest ih =>
    intro s h
    exact ih _ (orphanAt_applyOp d s op h)

@[simp]
theorem cancelFormStep_forms (s : PState) (n : String) :
    (cancelFormStep s n).forms = mapDelete s.forms n := by
  unfold cancelFormStep
  cases mapGet s.forms n <;> simp [unregisterForm]

theorem cancelFormStep_of_absent (s : PState) (n : String)
    (h : mapGet s.forms n = none) : cancelFormStep s n = s := by
  unfold cancelFormStep
  rw [h]
  show unregisterForm s n = s
  unfold unregisterForm
  rw [mapDelete_eq_self_of_mapGet_none _ _ h]

theorem cancelForm_singleton (s : PState) (n : String) :
    cancelForm s [n] = cancelFormStep s n := rfl

theorem resolveForm_of_absent (s : PState) (n : String) (v : Value)
    (h : mapGet s.forms n = none) :
    resolveForm s n v = .error (.error ("Form not registered: " ++ n)) := by
  unfold resolveForm
  rw [h]

theorem resolveForm_of_present (s : PState) (n : String) (v : Value)
    (form : RegisteredForm) (h : mapGet s.forms n = some form) :
    resolveForm s n v =
      .ok (unregisterForm
        (settleDeferred s form.registration (.resolved v)) n) := by
  unfold resolveForm
  rw [h]

theorem cancelFormStep_of_present (s : PState) (n : String)
    (form : RegisteredForm) (h : mapGet s.forms n = some form) :
    cancelFormStep s n =
      unregisterForm
        (settleDeferred s form.registration (.rejected userCancelledError))
        n := by
  unfold cancelFormStep
  rw [h]

/-- C2: `resolveForm(token, V)` fails with the `Form not registered`
(NotFound) error exactly when the store has no entry for the token;
otherwise it settles the registration deferred with exactly `V` — for
every value `V`, including `null` and empty or nested objects — and
removes the entry from the store. -/
theorem resolveForm_delivers_exact_value (s : PState) (n : String)
    (v : Value) :
    (resolveForm s n v = .error (.error ("Form not registered: " ++ n)) ↔
      mapGet s.forms n = none) ∧
    (∀ form, mapGet s.forms n = some form →
      getDeferred s form.registration = some .unsettled →
      ∃ s₁, resolveForm s n v = .ok s₁ ∧
        getDeferred s₁ form.registration = some (.resolved v) ∧
        mapGet s₁.forms n = none) := by
  constructor
  · constructor
    · intro h
      cases hform : mapGet s.forms n with
      | none => rfl
      | some form => rw [resolveForm_of_present s n v form hform] at h; exact absurd h (by simp)
    · intro h
      exact resolveForm_of_absent s n v h
  · intro form hform hun
    refine ⟨_, resolveForm_of_present s n v form hform, ?_, ?_⟩
    · show getDeferred (settleDeferred s form.registration (.resolved v))
        form.registration = some (.resolved v)
      exact getDeferred_settleDeferred_self s _ _ hun
    · show mapGet (mapDelete (settleDeferred s form.registration
        (.resolved v)).forms n) n = none
      exact mapGet_mapDelete_self _ _

/-- Witness for C2 at a concrete store: register a form under token `a`
in the empty store, then resolve it with a nested-object value. -/
theorem resolveForm_delivers_exact_value_witness :
    mapGet (registerForm PState.empty "a"
        ⟨.obj [("type", .str "object")], .obj [], true, "Submit"⟩).1.forms
        "a" =
      some ⟨⟨.obj [("type", .str "object")], .obj [], true, "Submit"⟩, 0⟩ ∧
    ∃ s₁,
      resolveForm (registerForm PState.empty "a"
          ⟨.obj [("type", .str "object")], .obj [], true, "Submit"⟩).1 "a"
          (.obj [("inner", .obj [])]) = .ok s₁ ∧
      getDeferred s₁ 0 = some (.resolved (.obj [("inner", .obj [])])) ∧
      mapGet s₁.forms "a" = none :=
  ⟨rfl,
    (resolveForm_delivers_exact_value _ "a" _).2
      ⟨⟨.obj [("type", .str "object")], .obj [], true, "Submit"⟩, 0⟩ rfl rfl⟩

/-- C5: `getFormDefinition(token)` raises a hard error (the `TypeError`
from dereferencing `undefined`) exactly when the token has no entry in
the store, and returns that token's definition when one is registered. -/
theorem getFormDefinition_fails_fast (s : PState) (t : String) :
    ((∃ e, getFormDefinition s t = .error e) ↔ mapGet s.forms t = none) ∧
    (∀ form, mapGet s.forms t = some form →
      getFormDefinition s t = .ok form.definition) := by
  constructor
  · constructor
    · intro ⟨e, he⟩
      cases hform : mapGet s.forms t with
      | none => rfl
      | some form =>
        unfold getFormDefinition at he
        rw [hform] at he
        exact absurd he (by simp)
    · intro h
      refine ⟨.typeError "Cannot read properties of undefined (reading \x27definition\x27)", ?_⟩
      unfold getFormDefinition
      rw [h]
  · intro form hform
    unfold getFormDefinition
    rw [hform]

/-- Witness for C5: lookup fails on the empty store and succeeds after a
registration. -/
theorem getFormDefinition_fails_fast_witness :
    (∃ e, getFormDefinition PState.empty "ghost" = .error e) ∧
    getFormDefinition (registerForm PState.empty "a"
        ⟨.null, .obj [], false, "OK"⟩).1 "a" =
      .ok ⟨.null, .obj [], false, "OK"⟩ :=
  ⟨(getFormDefinition_fails_fast PState.empty "ghost").1.mpr rfl,
    (getFormDefinition_fails_fast _ "a").2 ⟨⟨.null, .obj [], false, "OK"⟩, 0⟩ rfl⟩

theorem cancelForm_forms (ns : List String) :
    ∀ (s : PState) (t : String),
      mapGet (cancelForm s ns).forms t =
        if t ∈ ns then none else mapGet s.forms t := by
  induction ns with
  | nil => intro s t; simp [cancelForm]
  | cons n rest ih =>
    intro s t
    show mapGet (cancelForm (cancelFormStep s n) rest).forms t = _
    rw [ih]
    by_cases ht : t ∈ rest
    · simp [ht]
    · by_cases htn : t = n
      · subst htn
        simp [ht, cancelFormStep_forms]
      · simp only [cancelFormStep_forms, List.mem_cons, ht, htn, or_self,
          if_false]
        exact mapGet_mapDelete_ne _ _ _ (Ne.symm htn)

theorem settled_stays_cancelFormStep (s : PState) (n : String) (d : Nat)
    (X : DeferredState) (hX : X.isSettled = true)
    (hd : getDeferred s d = some X) :
    getDeferred (cancelFormStep s n) d = some X := by
  unfold cancelFormStep
  cases hform : mapGet s.forms n with
  | none => exact hd
  | some form =>
    show getDeferred (settleDeferred s form.registration _) d = some X
    by_cases hr : form.registration = d
    · subst hr
      rw [settleDeferred_of_settled s _ X _ hd hX]
      exact hd
    · rw [getDeferred_settleDeferred_ne _ _ _ _ hr]
      exact hd

theorem settled_stays_cancelForm (ns : List String) (d : Nat)
    (X : DeferredState) (hX : X.isSettled = true) :
    ∀ s : PState, getDeferred s d = some X →
      getDeferred (cancelForm s ns) d = some X := by
  induction ns with
  | nil => intro s h; exact h
  | cons n rest ih =>
    intro s h
    exact ih _ (settled_stays_cancelFormStep s n d X hX h)

theorem cancelFormStep_pending_cases (s : PState) (n : String) (d : Nat)
    (hd : getDeferred s d = some .unsettled) :
    getDeferred (cancelFormStep s n) d = some .unsettled ∨
    getDeferred (cancelFormStep s n) d =
      some (.rejected userCancelledError) := by
  unfold cancelFormStep
  cases hform : mapGet s.forms n with
  | none => left; exact hd
  | some form =>
    by_cases hr : form.registration = d
    · right
      show getDeferred (settleDeferred s form.registration _) d = _
      subst hr
      exact getDeferred_settleDeferred_self s _ _ hd
    · left
      show getDeferred (settleDeferred s form.registration _) d = _
      rw [getDeferred_settleDeferred_ne _ _ _ _ hr]
      exact hd

/-- If the token is listed and pending (or its deferred has already been
rejected by an earlier duplicate), the whole `cancelForm` call leaves its
deferred rejected with `CancelError` — settled exactly once. -/
theorem cancelForm_rejects (ns : List String) :
    ∀ (s : PState) (t : String) (form : RegisteredForm), t ∈ ns →
      mapGet s.forms t = some form →
      (getDeferred s form.registration = some .unsettled ∨
        getDeferred s form.registration =
          some (.rejected userCancelledError)) →
      getDeferred (cancelForm s ns) form.registration =
        some (.rejected userCancelledError) := by
  induction ns with
  | nil =>
    intro s t form ht
    exact absurd ht (List.not_mem_nil t)
  | cons n rest ih =>
    intro s t form ht hform hd
    show getDeferred (cancelForm (cancelFormStep s n) rest)
      form.registration = _
    by_cases htn : t = n
    · subst htn
      have hstep : getDeferred (cancelFormStep s t) form.registration =
          some (.rejected userCancelledError) := by
        rw [cancelFormStep_of_present s t form hform]
        show getDeferred (settleDeferred s form.registration _) _ = _
        rcases hd with hd | hd
        · exact getDeferred_settleDeferred_self s _ _ hd
        · rw [settleDeferred_of_settled s _ _ _ hd rfl]
          exact hd
      exact settled_stays_cancelForm rest form.registration
        (.rejected userCancelledError) rfl _ hstep
    · have htr : t ∈ rest := by
        rcases List.mem_cons.mp ht with h | h
        · exact absurd h htn
        · exact h
      have hform' : mapGet (cancelFormStep s n).forms t = some form := by
        rw [cancelFormStep_forms, mapGet_mapDelete_ne _ _ _ (Ne.symm htn)]
        exact hform
      rcases hd with hd | hd
      · rcases cancelFormStep_pending_cases s n form.registration hd with
          h' | h'
        · exact ih _ t form htr hform' (Or.inl h')
        · exact ih _ t form htr hform' (Or.inr h')
      · exact ih _ t form htr hform'
          (Or.inr (settled_stays_cancelFormStep s n _ _ rfl hd))

/-- C3: `cancelForm` is variadic and never throws (it is a total function
of the store): every listed token's entry is removed, unlisted tokens are
untouched, and each listed token that was pending has its deferred
rejected with `CancelError` exactly once — even when the token appears
several times in the list; listed tokens with no entry are silent
no-ops. -/
theorem cancelForm_variadic_noop (s : PState) (ts : List String)
    (t : String) :
    (mapGet (cancelForm s ts).forms t =
      if t ∈ ts then none else mapGet s.forms t) ∧
    (∀ form, t ∈ ts → mapGet s.forms t = some form →
      getDeferred s form.registration = some .unsettled →
      getDeferred (cancelForm s ts) form.registration =
        some (.rejected userCancelledError)) := by
  refine ⟨cancelForm_forms ts s t, ?_⟩
  intro form ht hform hun
  exact cancelForm_rejects ts s t form ht hform (Or.inl hun)

/-- Witness for C3: `cancelForm(a, b, a)` with `a` pending and `b`
unknown settles `a` exactly once (its deferred ends rejected with
`CancelError`), removes it, and does not disturb anything else. -/
theorem cancelForm_variadic_noop_witness :
    mapGet (cancelForm (registerForm PState.empty "a"
        ⟨.null, .obj [], true, "Submit"⟩).1 ["a", "b", "a"]).forms "a" =
      none ∧
    getDeferred (cancelForm (registerForm PState.empty "a"
        ⟨.null, .obj [], true, "Submit"⟩).1 ["a", "b", "a"]) 0 =
      some (.rejected userCancelledError) := by
  constructor
  · have h := (cancelForm_variadic_noop (registerForm PState.empty "a"
      ⟨.null, .obj [], true, "Submit"⟩).1 ["a", "b", "a"] "a").1
    simpa using h
  · exact (cancelForm_variadic_noop (registerForm PState.empty "a"
      ⟨.null, .obj [], true, "Submit"⟩).1 ["a", "b", "a"] "a").2
      ⟨⟨.null, .obj [], true, "Submit"⟩, 0⟩ (by simp) rfl rfl

/-- C1: single settlement. Once a pending token is settled — by a
successful `resolveForm` or by `cancelForm` — its entry is removed from
the store at that moment, a second `resolveForm` on the token fails with
the `Form not registered` (NotFound) error, a second `cancelForm` is a
no-op on the store, and no sequence of protocol operations ever changes
the settled outcome of its deferred (no transition out of a terminal
state). -/
theorem single_settlement (s : PState) (n : String) (form : RegisteredForm)
    (v w : Value)
    (hform : mapGet s.forms n = some form)
    (hun : getDeferred s form.registration = some .unsettled)
    (hlt : form.registration < s.nextDeferred) :
    (∀ s₁, resolveForm s n v = .ok s₁ →
      mapGet s₁.forms n = none ∧
      resolveForm s₁ n w = .error (.error ("Form not registered: " ++ n)) ∧
      cancelForm s₁ [n] = s₁ ∧
      ∀ ops, getDeferred (applyOps s₁ ops) form.registration =
        some (.resolved v)) ∧
    (mapGet (cancelForm s [n]).forms n = none ∧
      resolveForm (cancelForm s [n]) n w =
        .error (.error ("Form not registered: " ++ n)) ∧
      cancelForm (cancelForm s [n]) [n] = cancelForm s [n] ∧
      ∀ ops, getDeferred (applyOps (cancelForm s [n]) ops)
          form.registration = some (.rejected userCancelledError)) := by
  constructor
  · intro s₁ h
    rw [resolveForm_of_present s n v form hform] at h
    have hs₁ : s₁ = unregisterForm
        (settleDeferred s form.registration (.resolved v)) n := by
      cases h
      rfl
    subst hs₁
    have hnone : mapGet (unregisterForm
        (settleDeferred s form.registration (.resolved v)) n).forms n =
        none := by
      show mapGet (mapDelete _ n) n = none
      exact mapGet_mapDelete_self _ _
    refine ⟨hnone, resolveForm_of_absent _ n w hnone, ?_, ?_⟩
    · rw [cancelForm_singleton]
      exact cancelFormStep_of_absent _ n hnone
    · intro ops
      have hset : getDeferred (unregisterForm
          (settleDeferred s form.registration (.resolved v)) n)
          form.registration = some (.resolved v) := by
        show getDeferred (settleDeferred s form.registration (.resolved v))
          form.registration = _
        exact getDeferred_settleDeferred_self s _ _ hun
      have hlt' : form.registration < (unregisterForm
          (settleDeferred s form.registration (.resolved v)) n).nextDeferred := by
        simpa using hlt
      exact (settledAt_applyOps form.registration (.resolved v) rfl ops _
        ⟨hset, hlt'⟩).1
  · have hstep : cancelForm s [n] = unregisterForm
        (settleDeferred s form.registration (.rejected userCancelledError))
        n := by
      rw [cancelForm_singleton]
      exact cancelFormStep_of_present s n form hform
    rw [hstep]
    have hnone : mapGet (unregisterForm
        (settleDeferred s form.registration (.rejected userCancelledError))
        n).forms n = none := by
      show mapGet (mapDelete _ n) n = none
      exact mapGet_mapDelete_self _ _
    refine ⟨hnone, resolveForm_of_absent _ n w hnone, ?_, ?_⟩
    · rw [cancelForm_singleton]
      exact cancelFormStep_of_absent _ n hnone
    · intro ops
      have hset : getDeferred (unregisterForm
          (settleDeferred s form.registration
            (.rejected userCancelledError)) n) form.registration =
          some (.rejected userCancelledError) := by
        show getDeferred (settleDeferred s form.registration
          (.rejected userCancelledError)) form.registration = _
        exact getDeferred_settleDeferred_self s _ _ hun
      have hlt' : form.registration < (unregisterForm
          (settleDeferred s form.registration
            (.rejected userCancelledError)) n).nextDeferred := by
        simpa using hlt
      exact (settledAt_applyOps form.registration
        (.rejected userCancelledError) rfl ops _ ⟨hset, hlt'⟩).1

/-- Witness for C1: register token `a` in the empty store, cancel it,
and observe that the entry is gone and a second cancel is a no-op. -/
theorem single_settlement_witness :
    mapGet (cancelForm (registerForm PState.empty "a"
        ⟨.null, .obj [], true, "Submit"⟩).1 ["a"]).forms "a" = none ∧
    cancelForm (cancelForm (registerForm PState.empty "a"
        ⟨.null, .obj [], true, "Submit"⟩).1 ["a"]) ["a"] =
      cancelForm (registerForm PState.empty "a"
        ⟨.null, .obj [], true, "Submit"⟩).1 ["a"] := by
  have h := single_settlement (registerForm PState.empty "a"
      ⟨.null, .obj [], true, "Submit"⟩).1 "a"
      ⟨⟨.null, .obj [], true, "Submit"⟩, 0⟩ (.num 1) (.num 2) rfl rfl
      (by decide)
  exact ⟨h.2.1, h.2.2.2.1⟩

theorem mem_mapSet_nodup {κ α : Type} [DecidableEq κ] (m : List (κ × α))
    (k : κ) (v : α) (hnodup : (m.map Prod.fst).Nodup) (p : κ × α)
    (hp : p ∈ mapSet m k v) : p = (k, v) ∨ (p ∈ m ∧ p.1 ≠ k) := by
  induction m with
  | nil =>
    simp only [mapSet, List.mem_singleton] at hp
    left
    exact hp
  | cons q rest ih =>
    rw [List.map_cons, List.nodup_cons] at hnodup
    obtain ⟨hq, hrest⟩ := hnodup
    by_cases hqk : q.1 = k
    · simp only [mapSet, hqk, if_true, List.mem_cons] at hp
      rcases hp with hp | hp
      · left; exact hp
      · right
        refine ⟨List.mem_cons_of_mem _ hp, ?_⟩
        intro hpk
        apply hq
        rw [hqk, ← hpk]
        exact List.mem_map_of_mem Prod.fst hp
    · simp only [mapSet, hqk, if_false, List.mem_cons] at hp
      rcases hp with hp | hp
      · right
        refine ⟨?_, ?_⟩
        · rw [hp]; exact List.mem_cons_self q rest
        · rw [hp]; exact hqk
      · rcases ih hrest hp with h' | h'
        · left; exact h'
        · right; exact ⟨List.mem_cons_of_mem _ h'.1, h'.2⟩

theorem mapSet_keys_nodup {κ α : Type} [DecidableEq κ] (m : List (κ × α))
    (k : κ) (v : α) (h : (m.map Prod.fst).Nodup) :
    ((mapSet m k v).map Prod.fst).Nodup := by
  induction m with
  | nil => simp [mapSet]
  | cons q rest ih =>
    rw [List.map_cons, List.nodup_cons] at h
    obtain ⟨hq, hrest⟩ := h
    by_cases hqk : q.1 = k
    · simp only [mapSet, hqk, if_true, List.map_cons, List.nodup_cons]
      refine ⟨?_, hrest⟩
      rw [← hqk]
      exact hq
    · simp only [mapSet, hqk, if_false, List.map_cons, List.nodup_cons]
      refine ⟨?_, ih hrest⟩
      intro hmem
      rcases List.mem_map.mp hmem with ⟨p, hp, hpq⟩
      rcases mem_mapSet rest k v p hp with h' | h'
      · exact hq (hpq ▸ List.mem_map_of_mem Prod.fst h')
      · apply hqk
        rw [← hpq, h']

/-- C6 counterexample: registering token `t` a second time while its
first registration is still pending is NOT rejected — `registerForm`
returns normally with a fresh deferred (index 1), and the store entry for
`t` is overwritten with a fresh pending entry for the new definition. -/
theorem registerForm_duplicate_counterexample :
    (mapGet (registerForm PState.empty "t"
        ⟨.null, .obj [], true, "Submit"⟩).1.forms "t").isSome = true ∧
    (registerForm (registerForm PState.empty "t"
        ⟨.null, .obj [], true, "Submit"⟩).1 "t"
        ⟨.bool true, .obj [], false, "Go"⟩).2 = 1 ∧
    mapGet (registerForm (registerForm PState.empty "t"
        ⟨.null, .obj [], true, "Submit"⟩).1 "t"
        ⟨.bool true, .obj [], false, "Go"⟩).1.forms "t" =
      some ⟨⟨.bool true, .obj [], false, "Go"⟩, 1⟩ ∧
    getDeferred (registerForm (registerForm PState.empty "t"
        ⟨.null, .obj [], true, "Submit"⟩).1 "t"
        ⟨.bool true, .obj [], false, "Go"⟩).1 1 = some .unsettled :=
  ⟨rfl, rfl, rfl, rfl⟩

/-- C6 amended: `registerForm` on a token that is already present never
rejects; it logs a warning (`console.warn`) and overwrites the store
entry with a fresh pending entry for the new definition, returning the
fresh deferred. -/
theorem registerForm_warns_and_overwrites (s : PState) (t : String)
    (d : FormDefinition) (h : (mapGet s.forms t).isSome = true) :
    mapGet (registerForm s t d).1.forms t = some ⟨d, s.nextDeferred⟩ ∧
    (registerForm s t d).2 = s.nextDeferred ∧
    getDeferred (registerForm s t d).1 s.nextDeferred = some .unsettled ∧
    (registerForm s t d).1.warnings = s.warnings + 1 := by
  refine ⟨?_, rfl, ?_, ?_⟩
  · exact mapGet_mapSet_self _ _ _
  · show mapGet (mapSet s.deferreds s.nextDeferred .unsettled)
      s.nextDeferred = some .unsettled
    exact mapGet_mapSet_self _ _ _
  · show (if (mapGet s.forms t).isSome then s.warnings + 1 else s.warnings) =
      s.warnings + 1
    rw [h]
    rfl

/-- Witness for C6 (amended claim): a duplicate registration at a
concrete store warns and overwrites. -/
theorem registerForm_warns_and_overwrites_witness :
    (mapGet (registerForm PState.empty "t"
        ⟨.null, .obj [], true, "Submit"⟩).1.forms "t").isSome = true ∧
    (mapGet (registerForm (registerForm PState.empty "t"
          ⟨.null, .obj [], true, "Submit"⟩).1 "t"
          ⟨.bool true, .obj [], false, "Go"⟩).1.forms "t" =
        some ⟨⟨.bool true, .obj [], false, "Go"⟩, 1⟩ ∧
      (registerForm (registerForm PState.empty "t"
          ⟨.null, .obj [], true, "Submit"⟩).1 "t"
          ⟨.bool true, .obj [], false, "Go"⟩).2 = 1 ∧
      getDeferred (registerForm (registerForm PState.empty "t"
          ⟨.null, .obj [], true, "Submit"⟩).1 "t"
          ⟨.bool true, .obj [], false, "Go"⟩).1 1 = some .unsettled ∧
      (registerForm (registerForm PState.empty "t"
          ⟨.null, .obj [], true, "Submit"⟩).1 "t"
          ⟨.bool true, .obj [], false, "Go"⟩).1.warnings =
        (registerForm PState.empty "t"
          ⟨.null, .obj [], true, "Submit"⟩).1.warnings + 1) :=
  ⟨rfl, registerForm_warns_and_overwrites (registerForm PState.empty "t"
    ⟨.null, .obj [], true, "Submit"⟩).1 "t"
    ⟨.bool true, .obj [], false, "Go"⟩ rfl⟩

/-- C10: if `registerForm` is called a second time with a token whose
entry is still pending, the store entry is overwritten with the fresh
handle, and the deferred returned by the first call is orphaned: no
sequence of subsequent protocol operations (`registerForm`,
`resolveForm`, `cancelForm`, on this token or any other) can ever settle
it — the first caller's promise never resolves nor rejects. -/
theorem registerForm_overwrite_orphans_first_promise (s : PState)
    (t : String) (d₀ d₁ : FormDefinition)
    (hnodup : (s.forms.map Prod.fst).Nodup)
    (hreg : ∀ p ∈ s.forms, p.2.registration < s.nextDeferred) :
    mapGet (registerForm (registerForm s t d₀).1 t d₁).1.forms t =
      some ⟨d₁, (registerForm (registerForm s t d₀).1 t d₁).2⟩ ∧
    (registerForm (registerForm s t d₀).1 t d₁).2 ≠
      (registerForm s t d₀).2 ∧
    ∀ ops, getDeferred
        (applyOps (registerForm (registerForm s t d₀).1 t d₁).1 ops)
        (registerForm s t d₀).2 = some .unsettled := by
  refine ⟨mapGet_mapSet_self _ _ _, Nat.succ_ne_self _, ?_⟩
  intro ops
  have horphan : OrphanAt (registerForm s t d₀).2
      (registerForm (registerForm s t d₀).1 t d₁).1 := by
    refine ⟨?_, ?_, ?_⟩
    · show mapGet (mapSet (mapSet s.deferreds s.nextDeferred .unsettled)
        (s.nextDeferred + 1) .unsettled) s.nextDeferred = some .unsettled
      rw [mapGet_mapSet_ne _ _ _ _ (Nat.succ_ne_self _)]
      exact mapGet_mapSet_self _ _ _
    · show s.nextDeferred < s.nextDeferred + 1 + 1
      omega
    · intro p hp
      have hp2 := mem_mapSet_nodup (mapSet s.forms t ⟨d₀, s.nextDeferred⟩)
        t ⟨d₁, s.nextDeferred + 1⟩ (mapSet_keys_nodup _ _ _ hnodup) p hp
      rcases hp2 with hp2 | ⟨hp2, hpt⟩
      · rw [hp2]
        show s.nextDeferred + 1 ≠ s.nextDeferred
        exact Nat.succ_ne_self _
      · rcases mem_mapSet_nodup s.forms t ⟨d₀, s.nextDeferred⟩ hnodup p hp2
          with h' | ⟨h', _⟩
        · exact absurd (by rw [h'] : p.1 = t) hpt
        · exact Nat.ne_of_lt (hreg p h')
  exact (orphanAt_applyOps (registerForm s t d₀).2 ops _ horphan).1

/-- Witness for C10 at a concrete store: register `t` twice in the empty
store, then resolve and cancel `t`; the first deferred (index 0) stays
unsettled. -/
theorem registerForm_overwrite_orphans_first_promise_witness :
    mapGet (registerForm (registerForm PState.empty "t"
        ⟨.null, .obj [], true, "Submit"⟩).1 "t"
        ⟨.bool true, .obj [], false, "Go"⟩).1.forms "t" =
      some ⟨⟨.bool true, .obj [], false, "Go"⟩,
        (registerForm (registerForm PState.empty "t"
          ⟨.null, .obj [], true, "Submit"⟩).1 "t"
          ⟨.bool true, .obj [], false, "Go"⟩).2⟩ ∧
    (registerForm (registerForm PState.empty "t"
        ⟨.null, .obj [], true, "Submit"⟩).1 "t"
        ⟨.bool true, .obj [], false, "Go"⟩).2 ≠
      (registerForm PState.empty "t" ⟨.null, .obj [], true, "Submit"⟩).2 ∧
    ∀ ops, getDeferred
        (applyOps (registerForm (registerForm PState.empty "t"
          ⟨.null, .obj [], true, "Submit"⟩).1 "t"
          ⟨.bool true, .obj [], false, "Go"⟩).1 ops)
        (registerForm PState.empty "t"
          ⟨.null, .obj [], true, "Submit"⟩).2 = some .unsettled :=
  registerForm_overwrite_orphans_first_promise PState.empty "t"
    ⟨.null, .obj [], true, "Submit"⟩ ⟨.bool true, .obj [], false, "Go"⟩
    (by simp [PState.empty]) (by simp [PState.empty])

@[simp]
theorem setup_proto (a : TransformArgs) (s₀ : PState) (n : String)
    (hs : Bool) :
    (setup a s₀ n hs).proto = (registerForm s₀ n (formDefinitionOf a)).1 :=
  rfl

@[simp]
theorem setup_frameNonce (a : TransformArgs) (s₀ : PState) (n : String)
    (hs : Bool) : (setup a s₀ n hs).frameNonce = n := rfl

@[simp]
theorem setup_regId (a : TransformArgs) (s₀ : PState) (n : String)
    (hs : Bool) : (setup a s₀ n hs).regId = s₀.nextDeferred := rfl

@[simp]
theorem setup_location (a : TransformArgs) (s₀ : PState) (n : String)
    (hs : Bool) : (setup a s₀ n hs).location = effectiveLocation a := rfl

@[simp]
theorem setup_callerAborted (a : TransformArgs) (s₀ : PState) (n : String)
    (hs : Bool) : (setup a s₀ n hs).callerAborted = false := rfl

@[simp]
theorem setup_callerAbortListener (a : TransformArgs) (s₀ : PState)
    (n : String) (hs : Bool) : (setup a s₀ n hs).callerAbortListener = hs :=
  rfl

@[simp]
theorem setup_panelHidingListener (a : TransformArgs) (s₀ : PState)
    (n : String) (hs : Bool) :
    (setup a s₀ n hs).panelHidingListener =
      (if effectiveLocation a = "sidebar" then true else false) := rfl

@[simp]
theorem setup_ctrlAbortListener (a : TransformArgs) (s₀ : PState)
    (n : String) (hs : Bool) :
    (setup a s₀ n hs).ctrlAbortListener =
      (if effectiveLocation a = "sidebar" then true else false) := rfl

@[simp]
theorem setup_ctrlAborted (a : TransformArgs) (s₀ : PState) (n : String)
    (hs : Bool) : (setup a s₀ n hs).ctrlAborted = false := rfl

@[simp]
theorem setup_finished (a : TransformArgs) (s₀ : PState) (n : String)
    (hs : Bool) : (setup a s₀ n hs).finished = false := rfl

@[simp]
theorem setup_teardowns (a : TransformArgs) (s₀ : PState) (n : String)
    (hs : Bool) : (setup a s₀ n hs).teardowns = 0 := rfl

@[simp]
theorem setup_surfacesCreated (a : TransformArgs) (s₀ : PState)
    (n : String) (hs : Bool) : (setup a s₀ n hs).surfacesCreated = 1 := rfl

@[simp]
theorem setup_modalShown (a : TransformArgs) (s₀ : PState) (n : String)
    (hs : Bool) :
    (setup a s₀ n hs).modalShown =
      (if effectiveLocation a = "sidebar" then false else true) := rfl

@[simp]
theorem setup_sidebarFormShown (a : TransformArgs) (s₀ : PState)
    (n : String) (hs : Bool) :
    (setup a s₀ n hs).sidebarFormShown =
      (if effectiveLocation a = "sidebar" then true else false) := rfl

theorem registerForm_fresh_deferred (s₀ : PState) (n : String)
    (d : FormDefinition) :
    getDeferred (registerForm s₀ n d).1 s₀.nextDeferred =
      some .unsettled := by
  show mapGet (mapSet s₀.deferreds s₀.nextDeferred .unsettled)
    s₀.nextDeferred = some .unsettled
  exact mapGet_mapSet_self _ _ _

theorem cancel_fresh (s₀ : PState) (n : String) (d : FormDefinition) :
    getDeferred (cancelForm (registerForm s₀ n d).1 [n]) s₀.nextDeferred =
      some (.rejected userCancelledError) := by
  rw [cancelForm_singleton,
    cancelFormStep_of_present _ n ⟨d, s₀.nextDeferred⟩
      (mapGet_mapSet_self _ _ _)]
  show getDeferred (settleDeferred _ s₀.nextDeferred _) s₀.nextDeferred = _
  exact getDeferred_settleDeferred_self _ _ _
    (registerForm_fresh_deferred s₀ n d)

theorem resolve_fresh (s₀ : PState) (n : String) (d : FormDefinition)
    (v : Value) :
    ∃ s₁, resolveForm (registerForm s₀ n d).1 n v = .ok s₁ ∧
      getDeferred s₁ s₀.nextDeferred = some (.resolved v) := by
  refine ⟨_, resolveForm_of_present _ n v ⟨d, s₀.nextDeferred⟩
    (mapGet_mapSet_self _ _ _), ?_⟩
  show getDeferred (settleDeferred _ s₀.nextDeferred _) s₀.nextDeferred = _
  exact getDeferred_settleDeferred_self _ _ _
    (registerForm_fresh_deferred s₀ n d)

theorem controllerAbort_of_aborted (w : World) (h : w.ctrlAborted = true) :
    controllerAbort w = w := by
  unfold controllerAbort
  rw [h]
  rfl

@[simp]
theorem controllerAbort_regId (w : World) :
    (controllerAbort w).regId = w.regId := by
  unfold controllerAbort
  split_ifs <;> rfl

@[simp]
theorem controllerAbort_frameNonce (w : World) :
    (controllerAbort w).frameNonce = w.frameNonce := by
  unfold controllerAbort
  split_ifs <;> rfl

theorem cancel_fresh_absent (s₀ : PState) (n : String) (d : FormDefinition) :
    mapGet (cancelForm (registerForm s₀ n d).1 [n]).forms n = none := by
  rw [cancelForm_forms]
  simp

theorem controllerAbort_ctrlAborted (w : World) :
    (controllerAbort w).ctrlAborted = true := by
  unfold controllerAbort
  split_ifs with h1 h2 h3
  · exact h1
  · rfl
  · rfl
  · rfl

theorem controllerAbort_proto_of_absent (w : World)
    (h : mapGet w.proto.forms w.frameNonce = none) :
    (controllerAbort w).proto = w.proto := by
  unfold controllerAbort
  split_ifs with h1 h2 h3
  · rfl
  · show cancelForm w.proto [w.frameNonce] = w.proto
    rw [cancelForm_singleton]
    exact cancelFormStep_of_absent _ _ h
  · rfl
  · rfl

theorem worldInv_controllerAbort (hs : Bool) (loc : String) (w : World)
    (h : WorldInv hs loc w) : WorldInv hs loc (controllerAbort w) := by
  unfold WorldInv at h ⊢
  unfold controllerAbort
  split_ifs with h1 h2 h3 <;> simp_all

theorem worldInv_fireEvent (hs : Bool) (loc : String) (w : World)
    (h : WorldInv hs loc w) (e : UiEvent) :
    WorldInv hs loc (fireEvent w e) := by
  cases e with
  | callerAbort =>
    show WorldInv hs loc (if w.callerAborted then w
      else if w.callerAbortListener then
        { w with callerAborted := true,
                 proto := cancelForm w.proto [w.frameNonce] }
      else { w with callerAborted := true })
    split_ifs <;> exact h
  | panelHiding =>
    show WorldInv hs loc
      (if w.panelHidingListener then controllerAbort w else w)
    split_ifs with h1
    · exact worldInv_controllerAbort hs loc w h
    · exact h
  | submit values =>
    show WorldInv hs loc (match resolveForm w.proto w.frameNonce values with
      | .ok s => { w with proto := s }
      | .error _ => w)
    cases resolveForm w.proto w.frameNonce values with
    | ok s => exact h
    | error e => exact h
  | dismiss => exact h

theorem worldInv_resumeIfSettled (hs : Bool) (loc : String) (w : World)
    (h : WorldInv hs loc w) : WorldInv hs loc (resumeIfSettled w) := by
  unfold resumeIfSettled
  split_ifs with h1 h2
  · exact h
  · obtain ⟨hloc, hsurf, htear, hcal, hctl, hpan, -⟩ :=
      worldInv_controllerAbort hs loc w h
    exact ⟨hloc, hsurf, htear, hcal, hctl, hpan,
      fun _ => controllerAbort_ctrlAborted w⟩
  · exact h

theorem worldInv_runEvents (hs : Bool) (loc : String) (es : List UiEvent) :
    ∀ w : World, WorldInv hs loc w → WorldInv hs loc (runEvents w es) := by
  induction es with
  | nil => intro w h; exact h
  | cons e rest ih =>
    intro w h
    exact ih _ (worldInv_resumeIfSettled hs loc _
      (worldInv_fireEvent hs loc w h e))

theorem worldInv_setup (a : TransformArgs) (s₀ : PState) (nonce : String)
    (hs : Bool) :
    WorldInv hs (effectiveLocation a) (setup a s₀ nonce hs) := by
  refine ⟨rfl, rfl, rfl, rfl, rfl, ?_, ?_⟩ <;>
    intro hfalse <;> exact absurd hfalse (by simp)

/-- C7: teardown always runs exactly once. For every `transform` call
and every sequence of external events, exactly one rendering surface is
created; at most one teardown ever runs; and whenever the call has
finished — whether by successful resolution, cancellation, or
caller-side abort — the surface teardown has run exactly once, even when
resolution never occurred. -/
theorem teardown_always_runs (a : TransformArgs) (s₀ : PState)
    (nonce : String) (hasSignal : Bool) (es : List UiEvent) :
    (runEvents (setup a s₀ nonce hasSignal) es).surfacesCreated = 1 ∧
    (runEvents (setup a s₀ nonce hasSignal) es).teardowns ≤ 1 ∧
    ((runEvents (setup a s₀ nonce hasSignal) es).finished = true →
      (runEvents (setup a s₀ nonce hasSignal) es).teardowns = 1) := by
  obtain ⟨-, hsurf, htear, -, -, -, hfin⟩ :=
    worldInv_runEvents hasSignal (effectiveLocation a) es _
      (worldInv_setup a s₀ nonce hasSignal)
  refine ⟨hsurf, ?_, ?_⟩
  · rw [htear]
    split_ifs <;> omega
  · intro hf
    rw [htear, hfin hf]
    simp

/-- Witness for C7: a modal `transform` call cancelled through the
caller-abort path finishes with exactly one teardown, although
resolution never occurred. -/
theorem teardown_always_runs_witness :
    (runEvents (setup ⟨.obj [("type", .str "object")], none, none, none,
        none⟩ PState.empty "n" true) [.callerAbort]).finished = true ∧
    (runEvents (setup ⟨.obj [("type", .str "object")], none, none, none,
        none⟩ PState.empty "n" true) [.callerAbort]).teardowns = 1 :=
  ⟨rfl, (teardown_always_runs ⟨.obj [("type", .str "object")], none, none,
    none, none⟩ PState.empty "n" true [.callerAbort]).2.2 rfl⟩

/-- C8 counterexample: not every listener registration made by the
cancellation bridge is released on settlement. After the request settles
(here: a successful submit), the `"abort"` listener that `transform`
registered on the caller's `abortSignal` is still registered — the code
adds it with no removal mechanism. -/
theorem listener_release_counterexample :
    (runEvents (setup ⟨.obj [("type", .str "object")], none, none, none,
        none⟩ PState.empty "n" true) [.submit .null]).finished = true ∧
    (runEvents (setup ⟨.obj [("type", .str "object")], none, none, none,
        none⟩ PState.empty "n" true) [.submit .null]).callerAbortListener =
      true :=
  ⟨rfl, rfl⟩

/-- C8 amended: of the listener registrations the bridge makes, only the
panel-hidden listener (registered with `{ signal: controller.signal }`)
is released once the request settles; the caller-abort listener on the
caller's `abortSignal` is never removed and stays registered exactly as
created, and the scoped-controller abort listener likewise stays
registered on the controller's signal. -/
theorem listener_release_amended (a : TransformArgs) (s₀ : PState)
    (nonce : String) (hasSignal : Bool) (es : List UiEvent) :
    ((runEvents (setup a s₀ nonce hasSignal) es).finished = true →
      (runEvents (setup a s₀ nonce hasSignal) es).panelHidingListener =
        false) ∧
    (runEvents (setup a s₀ nonce hasSignal) es).callerAbortListener =
      hasSignal ∧
    (runEvents (setup a s₀ nonce hasSignal) es).ctrlAbortListener =
      (if effectiveLocation a = "sidebar" then true else false) := by
  obtain ⟨-, -, -, hcal, hctl, hpan, hfin⟩ :=
    worldInv_runEvents hasSignal (effectiveLocation a) es _
      (worldInv_setup a s₀ nonce hasSignal)
  exact ⟨fun hf => hpan (hfin hf), hcal, hctl⟩

/-- Witness for C8 (amended claim): a sidebar call settled by the
panel-hiding path releases the panel listener but keeps the caller-abort
listener registered. -/
theorem listener_release_amended_witness :
    (runEvents (setup ⟨.obj [("type", .str "object")], none, none, none,
        some "sidebar"⟩ PState.empty "n" true)
        [.panelHiding]).finished = true ∧
    (runEvents (setup ⟨.obj [("type", .str "object")], none, none, none,
        some "sidebar"⟩ PState.empty "n" true)
        [.panelHiding]).panelHidingListener = false ∧
    (runEvents (setup ⟨.obj [("type", .str "object")], none, none, none,
        some "sidebar"⟩ PState.empty "n" true)
        [.panelHiding]).callerAbortListener = true := by
  refine ⟨rfl, ?_, ?_⟩
  · exact (listener_release_amended ⟨.obj [("type", .str "object")], none,
      none, none, some "sidebar"⟩ PState.empty "n" true [.panelHiding]).1
      rfl
  · exact (listener_release_amended ⟨.obj [("type", .str "object")], none,
      none, none, some "sidebar"⟩ PState.empty "n" true [.panelHiding]).2.1

/-- C4: cancelling a pending token rejects its registration deferred with
the `CancelError` (`UserCancelled`) failure — it can never resolve
successfully — and at the facade, `transform` rejects with that same
failure when the caller's abort signal fires before settlement, and when
the sidebar panel is hidden before settlement. -/
theorem cancellation_propagates (s : PState) (n : String)
    (form : RegisteredForm) (hform : mapGet s.forms n = some form)
    (hun : getDeferred s form.registration = some .unsettled) :
    getDeferred (cancelForm s [n]) form.registration =
      some (.rejected userCancelledError) ∧
    (∀ (a : TransformArgs) (s₀ : PState) (nonce : String),
      transformOutcome (runEvents (setup a s₀ nonce true) [.callerAbort]) =
        some (.error userCancelledError)) ∧
    (∀ (a : TransformArgs) (s₀ : PState) (nonce : String) (hs : Bool),
      effectiveLocation a = "sidebar" →
      transformOutcome (runEvents (setup a s₀ nonce hs) [.panelHiding]) =
        some (.error userCancelledError)) := by
  refine ⟨?_, ?_, ?_⟩
  · rw [cancelForm_singleton, cancelFormStep_of_present s n form hform]
    show getDeferred (settleDeferred s form.registration _) _ = _
    exact getDeferred_settleDeferred_self s _ _ hun
  · intro a s₀ nonce
    have hset := cancel_fresh s₀ nonce (formDefinitionOf a)
    have habs := cancel_fresh_absent s₀ nonce (formDefinitionOf a)
    show transformOutcome (resumeIfSettled { setup a s₀ nonce true with
      callerAborted := true,
      proto := cancelForm (registerForm s₀ nonce
        (formDefinitionOf a)).1 [nonce] }) = _
    unfold resumeIfSettled World.isSettled
    simp only [hset]
    rw [controllerAbort_proto_of_absent _ habs]
    simp [transformOutcome, hset]
  · intro a s₀ nonce hs hloc
    have hset := cancel_fresh s₀ nonce (formDefinitionOf a)
    have hfe : fireEvent (setup a s₀ nonce hs) .panelHiding =
        controllerAbort (setup a s₀ nonce hs) := by
      show (if (setup a s₀ nonce hs).panelHidingListener then
          controllerAbort (setup a s₀ nonce hs)
        else (setup a s₀ nonce hs)) = controllerAbort (setup a s₀ nonce hs)
      simp [hloc]
    have hca : controllerAbort (setup a s₀ nonce hs) =
        { setup a s₀ nonce hs with
          ctrlAborted := true, panelHidingListener := false,
          teardowns := 1, sidebarFormShown := false,
          proto := cancelForm (registerForm s₀ nonce
            (formDefinitionOf a)).1 [nonce] } := by
      unfold controllerAbort
      simp [hloc]
    show transformOutcome (resumeIfSettled (fireEvent (setup a s₀ nonce hs)
      .panelHiding)) = _
    rw [hfe, hca]
    unfold resumeIfSettled World.isSettled
    simp only [hset]
    rw [controllerAbort_of_aborted _ rfl]
    simp [transformOutcome, hset]

/-- Witness for C4: cancel a concretely registered token and run a
concrete modal `transform` call through the caller-abort path. -/
theorem cancellation_propagates_witness :
    getDeferred (cancelForm (registerForm PState.empty "a"
        ⟨.null, .obj [], true, "Submit"⟩).1 ["a"]) 0 =
      some (.rejected userCancelledError) ∧
    transformOutcome (runEvents (setup ⟨.obj [("type", .str "object")],
        none, none, none, none⟩ PState.empty "n" true) [.callerAbort]) =
      some (.error userCancelledError) := by
  have h := cancellation_propagates (registerForm PState.empty "a"
    ⟨.null, .obj [], true, "Submit"⟩).1 "a"
    ⟨⟨.null, .obj [], true, "Submit"⟩, 0⟩ rfl rfl
  exact ⟨h.1, h.2.1 ⟨.obj [("type", .str "object")], none, none, none,
    none⟩ PState.empty "n"⟩

/-- C9: when an option of `transform` is omitted, its destructuring
default applies — `cancelable = true`, `submitCaption = "Submit"`,
`location = "modal"` (so the request is displayed as a modal, not a
sidebar form) — the registered definition is exactly the one built from
the effective options, `schema` is passed through as given, and in
`inputSchema` the `schema` property is required while `location` admits
only `"modal"` and `"sidebar"`. -/
theorem transform_defaults (a : TransformArgs) (s₀ : PState)
    (nonce : String) (hasSignal : Bool) :
    (mapGet (setup a s₀ nonce hasSignal).proto.forms nonce).map
        (fun f => f.definition) = some (formDefinitionOf a) ∧
    (formDefinitionOf a).schema = a.schema ∧
    (a.cancelable = none → (formDefinitionOf a).cancelable = true) ∧
    (a.submitCaption = none →
      (formDefinitionOf a).submitCaption = "Submit") ∧
    (a.location = none →
      (setup a s₀ nonce hasSignal).location = "modal" ∧
      (setup a s₀ nonce hasSignal).modalShown = true ∧
      (setup a s₀ nonce hasSignal).sidebarFormShown = false) ∧
    getField inputSchema "required" = some (.arr [.str "schema"]) ∧
    ((getField inputSchema "properties").bind
        (fun p => getField p "location")).bind
      (fun l => getField l "enum") =
        some (.arr [.str "modal", .str "sidebar"]) := by
  refine ⟨?_, rfl, ?_, ?_, ?_, rfl, rfl⟩
  · show (mapGet (mapSet s₀.forms nonce
      ⟨formDefinitionOf a, s₀.nextDeferred⟩) nonce).map
      (fun f => f.definition) = some (formDefinitionOf a)
    rw [mapGet_mapSet_self]
    rfl
  · intro h
    show a.cancelable.getD true = true
    rw [h]
    rfl
  · intro h
    show a.submitCaption.getD "Submit" = "Submit"
    rw [h]
    rfl
  · intro h
    have hl : effectiveLocation a = "modal" := by
      show a.location.getD "modal" = "modal"
      rw [h]
      rfl
    refine ⟨by rw [setup_location, hl], ?_, ?_⟩
    · rw [setup_modalShown, hl]
      decide
    · rw [setup_sidebarFormShown, hl]
      decide

/-- Witness for C9: a call with every option omitted registers
`{ schema, uiSchema: {}, cancelable: true, submitCaption: "Submit" }`
and displays a modal. -/
theorem transform_defaults_witness :
    (mapGet (setup ⟨.obj [("type", .str "object")], none, none, none,
        none⟩ PState.empty "n" false).proto.forms "n").map
        (fun f => f.definition) =
      some ⟨.obj [("type", .str "object")], .obj [], true, "Submit"⟩ ∧
    (setup ⟨.obj [("type", .str "object")], none, none, none, none⟩
        PState.empty "n" false).location = "modal" ∧
    (setup ⟨.obj [("type", .str "object")], none, none, none, none⟩
        PState.empty "n" false).modalShown = true := by
  have h := transform_defaults ⟨.obj [("type", .str "object")], none, none,
    none, none⟩ PState.empty "n" false
  exact ⟨h.1, (h.2.2.2.2.1 rfl).1, (h.2.2.2.2.1 rfl).2.1⟩

end EphemeralForm
